import Mathlib

/-!
Verification of the R:R (risk/reward) trade-filter utilities.

The source is a small Python module (`base_risk_reward_startegy.py`) of pure
arithmetic functions plus one pandas batch wrapper.  The embedding models:

* Python floats as rationals `ℚ` (exact arithmetic; the source performs only
  field operations and `math.floor`);
* the `direction` field as a `String`: the source compares it against the
  literal `"long"` with `==` and treats every other value as short, so the
  runtime type, not the `Literal["long","short"]` annotation, is what matters;
* `Optional[float]` as `Option ℚ`;
* a pandas `DataFrame` as a `List Row`, where a `Row` is an association list
  of column names to dynamically typed cell values (`PyVal`), so that the
  exception-swallowing behaviour of `filter_trades_by_rr` on ill-typed rows
  can be stated.
-/

/-- The `TradeIdea` dataclass: direction is a plain string at runtime. -/
structure TradeIdea where
  symbol : String
  direction : String
  entry : ℚ
  stop : ℚ
  target : Option ℚ
  atr : Option ℚ
  atr_mult : Option ℚ
  deriving DecidableEq

/-- `TradeIdea.resolve_stop`: when both `atr` and `atr_mult` are present the
effective stop is derived from the entry, otherwise the raw `stop` field is
returned. -/
def TradeIdea.resolve_stop (i : TradeIdea) : ℚ :=
  match i.atr, i.atr_mult with
  | some a, some m =>
      if i.direction = "long" then i.entry - a * m else i.entry + a * m
  | _, _ => i.stop

/-- `TradeIdea.risk_reward`: `none` models Python's `None` return. -/
def TradeIdea.risk_reward (i : TradeIdea) : Option ℚ :=
  let stop := i.resolve_stop
  match i.target with
  | none => none
  | some target =>
      let rr : ℚ × ℚ :=
        if i.direction = "long" then (i.entry - stop, target - i.entry)
        else (stop - i.entry, i.entry - target)
      if rr.1 ≤ 0 then none else some (rr.2 / rr.1)

/-- `TradeIdea.target_for_rr`: derives the target achieving a desired R:R;
no guard on the sign of the risk. -/
def TradeIdea.target_for_rr (i : TradeIdea) (desired_rr : ℚ) : ℚ :=
  let stop := i.resolve_stop
  if i.direction = "long" then i.entry + desired_rr * (i.entry - stop)
  else i.entry - desired_rr * (stop - i.entry)

/-- The per-unit dollar risk computed at the top of `position_size_by_risk`. -/
def per_unit_risk (entry stop : ℚ) (direction : String)
    (contract_multiplier : ℚ) : ℚ :=
  if direction = "long" then (entry - stop) * contract_multiplier
  else (stop - entry) * contract_multiplier

/-- `position_size_by_risk`: returns `(position_size, risk_per_unit)`.
`size0` is Python's `math.floor(...)`, `size1` the `max(size, 0.0)`
reassignment, `size2` the sub-minimum clamp. -/
def position_size_by_risk (equity risk_pct entry stop : ℚ) (direction : String)
    (contract_multiplier min_size : ℚ) : ℚ × ℚ :=
  let pur := per_unit_risk entry stop direction contract_multiplier
  if pur ≤ 0 then (0, 0)
  else
    let total_risk_allowed := equity * risk_pct
    let size0 : ℚ := ((⌊total_risk_allowed / pur⌋ : ℤ) : ℚ)
    let size1 : ℚ := max size0 0
    let size2 : ℚ := if 0 < size1 ∧ size1 < min_size then 0 else size1
    (size2, pur)

/-- Free function `compute_rr`: identical arithmetic to
`TradeIdea.risk_reward` but over raw scalars, with the same `risk ≤ 0`
guard. -/
def compute_rr (entry stop target : ℚ) (direction : String) : Option ℚ :=
  let rr : ℚ × ℚ :=
    if direction = "long" then (entry - stop, target - entry)
    else (stop - entry, entry - target)
  if rr.1 ≤ 0 then none else some (rr.2 / rr.1)

/-- Free function `target_from_rr`: unguarded target derivation. -/
def target_from_rr (entry stop desired_rr : ℚ) (direction : String) : ℚ :=
  if direction = "long" then entry + desired_rr * (entry - stop)
  else entry - desired_rr * (stop - entry)

/-- The directional risk `entry - stop` (long) or `stop - entry` (short),
as computed inside `compute_rr` and `target_from_rr`. -/
def dir_risk (entry stop : ℚ) (direction : String) : ℚ :=
  if direction = "long" then entry - stop else stop - entry

/-- The directional risk of a `TradeIdea` after stop resolution, as computed
inside `TradeIdea.risk_reward`. -/
def TradeIdea.riskOf (i : TradeIdea) : ℚ :=
  if i.direction = "long" then i.entry - i.resolve_stop
  else i.resolve_stop - i.entry

/-- The directional reward toward a given target, as computed inside
`TradeIdea.risk_reward`. -/
def TradeIdea.rewardOf (i : TradeIdea) (target : ℚ) : ℚ :=
  if i.direction = "long" then target - i.entry else i.entry - target

/-!
## Dynamic model of the pandas batch filter

`filter_trades_by_rr` applies `compute_rr` row by row to a DataFrame via a
`safe_rr` wrapper that turns any exception, a `None`, or a non-finite float
into NaN.  Cells can hold arbitrary Python values, so `compute_rr` is
re-read here over a dynamic value type: Python `-`, `/` and `<=` raise
`TypeError` on strings and `None`, treat `bool` as 0/1, and propagate NaN.
Infinities are outside this ℚ-based model.
-/

/-- A dynamically typed cell value of a DataFrame. -/
inductive PyVal where
  | num (q : ℚ)
  | str (s : String)
  | none_
  | bool (b : Bool)
  | nan
  deriving DecidableEq

/-- A Python number: a finite value or NaN. -/
inductive PNum where
  | fin (q : ℚ)
  | nan
  deriving DecidableEq

/-- Values accepted by Python numeric operators: numbers, bools (0/1) and
NaN; strings and `None` raise `TypeError` (modelled as `none`). -/
def PyVal.toNum : PyVal → Option PNum
  | .num q => some (.fin q)
  | .bool b => some (.fin (if b then 1 else 0))
  | .nan => some .nan
  | _ => none

/-- Python subtraction on possibly-NaN floats. -/
def PNum.sub : PNum → PNum → PNum
  | .fin a, .fin b => .fin (a - b)
  | _, _ => .nan

/-- Python `x <= 0`: false whenever `x` is NaN. -/
def PNum.nonpos : PNum → Bool
  | .fin a => decide (a ≤ 0)
  | .nan => false

/-- Python division on possibly-NaN floats; only reached with a non-zero
denominator in this development (the `risk <= 0` guard runs first). -/
def PNum.div : PNum → PNum → PNum
  | .fin a, .fin b => .fin (a / b)
  | _, _ => .nan

/-- `math.isfinite` over the model (no infinities representable). -/
def PNum.isfinite : PNum → Bool
  | .fin _ => true
  | .nan => false

/-- `compute_rr` applied to dynamically typed arguments, as it happens
inside `safe_rr`.  `Except.error` models a raised exception, `.ok none`
Python's `None` result. -/
def compute_rr_dyn (entry stop target direction : PyVal) :
    Except Unit (Option PNum) :=
  match entry.toNum, stop.toNum with
  | some e, some s =>
      match target.toNum with
      | some t =>
          let risk := if direction = PyVal.str "long" then e.sub s else s.sub e
          let reward :=
            if direction = PyVal.str "long" then t.sub e else e.sub t
          if risk.nonpos then .ok none else .ok (some (reward.div risk))
      | none => .error ()
  | _, _ => .error ()

/-- A DataFrame row: an association list from column names to values. -/
structure Row where
  cells : List (String × PyVal)
  deriving DecidableEq

/-- First value stored under a column name, `none` when the column is
missing (Python raises `KeyError`). -/
def getCell : List (String × PyVal) → String → Option PyVal
  | [], _ => none
  | (k, w) :: tl, c => if k = c then some w else getCell tl c

/-- Whether a column name is present. -/
def hasKey : List (String × PyVal) → String → Bool
  | [], _ => false
  | (k, _) :: tl, c => k = c || hasKey tl c

/-- Replace every cell under a column name, keeping positions. -/
def replaceKey : List (String × PyVal) → String → PyVal → List (String × PyVal)
  | [], _, _ => []
  | (k, w) :: tl, c, v =>
      if k = c then (c, v) :: replaceKey tl c v
      else (k, w) :: replaceKey tl c v

def Row.get (r : Row) (c : String) : Option PyVal := getCell r.cells c

/-- `df[c] = v` on one row: pandas column assignment overwrites an existing
column in place and appends a new one at the end. -/
def Row.setCol (r : Row) (c : String) (v : PyVal) : Row :=
  if hasKey r.cells c then ⟨replaceKey r.cells c v⟩ else ⟨r.cells ++ [(c, v)]⟩

/-- `safe_rr` of one row: looks up the four columns and runs `compute_rr`;
exceptions (including `KeyError` on a missing column) and `None` and
non-finite results all collapse to NaN. -/
def rowRR (r : Row) (entry_col stop_col target_col direction_col : String) :
    Except Unit (Option PNum) :=
  match r.get entry_col, r.get stop_col, r.get target_col,
      r.get direction_col with
  | some e, some s, some t, some d => compute_rr_dyn e s t d
  | _, _, _, _ => .error ()

/-- The value written into the `rr` column for one row. -/
def safe_rr (r : Row) (entry_col stop_col target_col direction_col : String) :
    PyVal :=
  match rowRR r entry_col stop_col target_col direction_col with
  | .ok (some (.fin q)) => .num q
  | _ => .nan

/-- `df["rr"] >= min_rr` on one cell: NaN (and the impossible non-numeric
cases) compares false. -/
def passOf (v : PyVal) (min_rr : ℚ) : Bool :=
  match v with
  | .num q => decide (min_rr ≤ q)
  | _ => false

/-- `filter_trades_by_rr`: copies the frame, writes the `rr` column from
`safe_rr`, then the `pass_rr` column from `rr >= min_rr`. -/
def filter_trades_by_rr (df : List Row)
    (entry_col stop_col target_col direction_col : String) (min_rr : ℚ) :
    List Row :=
  df.map fun r =>
    let rrv := safe_rr r entry_col stop_col target_col direction_col
    (r.setCol "rr" rrv).setCol "pass_rr" (.bool (passOf rrv min_rr))

/-!
## Helper lemmas
-/

/-- When the ATR pair is not fully present, `resolve_stop` falls through to
the raw `stop` field. -/
theorem resolve_stop_of_no_atr (i : TradeIdea)
    (h : i.atr = none ∨ i.atr_mult = none) : i.resolve_stop = i.stop := by
  rcases h with h | h
  · simp [TradeIdea.resolve_stop, h]
  · unfold TradeIdea.resolve_stop
    rw [h]
    cases i.atr <;> rfl

theorem hasKey_eq_false_iff (l : List (String × PyVal)) (c : String) :
    hasKey l c = false ↔ getCell l c = none := by
  induction l with
  | nil => simp [hasKey, getCell]
  | cons hd tl ih =>
      obtain ⟨k, w⟩ := hd
      by_cases hk : k = c <;> simp [hasKey, getCell, hk, ih]

theorem getCell_append_single_other (l : List (String × PyVal)) (k c : String)
    (v : PyVal) (h : c ≠ k) : getCell (l ++ [(k, v)]) c = getCell l c := by
  induction l with
  | nil =>
      have : ¬k = c := fun e => h e.symm
      simp [getCell, this]
  | cons hd tl ih =>
      obtain ⟨k', w⟩ := hd
      by_cases hk : k' = c <;> simp [getCell, hk, ih]

theorem getCell_append_single_self (l : List (String × PyVal)) (c : String)
    (v : PyVal) (h : getCell l c = none) :
    getCell (l ++ [(c, v)]) c = some v := by
  induction l with
  | nil => simp [getCell]
  | cons hd tl ih =>
      obtain ⟨k, w⟩ := hd
      by_cases hk : k = c
      · simp [getCell, hk] at h
      · simp [getCell, hk] at h ⊢
        exact ih h

theorem getCell_replaceKey_self (l : List (String × PyVal)) (c : String)
    (v : PyVal) (h : hasKey l c = true) :
    getCell (replaceKey l c v) c = some v := by
  induction l with
  | nil => simp [hasKey] at h
  | cons hd tl ih =>
      obtain ⟨k, w⟩ := hd
      by_cases hk : k = c
      · simp [replaceKey, getCell, hk]
      · simp [hasKey, hk] at h
        simp [replaceKey, getCell, hk, ih h]

theorem getCell_replaceKey_other (l : List (String × PyVal)) (c c' : String)
    (v : PyVal) (h : c' ≠ c) :
    getCell (replaceKey l c v) c' = getCell l c' := by
  induction l with
  | nil => simp [replaceKey]
  | cons hd tl ih =>
      obtain ⟨k, w⟩ := hd
      by_cases hk : k = c
      · subst hk
        have : ¬k = c' := fun e => h e.symm
        simp [replaceKey, getCell, this, ih]
      · by_cases hk' : k = c' <;> simp [replaceKey, getCell, hk, hk', h, ih]

/-- Reading back the column just assigned. -/
theorem Row.get_setCol_self (r : Row) (c : String) (v : PyVal) :
    (r.setCol c v).get c = some v := by
  unfold Row.setCol
  by_cases h : hasKey r.cells c
  · simp only [h, if_true]
    exact getCell_replaceKey_self r.cells c v h
  · simp only [h, Bool.false_eq_true, if_false]
    exact getCell_append_single_self r.cells c v
      ((hasKey_eq_false_iff r.cells c).mp (by simpa using h))

/-- Assigning one column leaves every other column unchanged. -/
theorem Row.get_setCol_other (r : Row) (c c' : String) (v : PyVal)
    (h : c' ≠ c) : (r.setCol c v).get c' = r.get c' := by
  unfold Row.setCol
  by_cases hk : hasKey r.cells c
  · simp only [hk, if_true]
    exact getCell_replaceKey_other r.cells c c' v h
  · simp only [hk, Bool.false_eq_true, if_false]
    exact getCell_append_single_other r.cells c c' v h

/-- Assigning an absent column appends it at the end. -/
theorem Row.setCol_absent (r : Row) (c : String) (v : PyVal)
    (h : r.get c = none) : (r.setCol c v).cells = r.cells ++ [(c, v)] := by
  unfold Row.setCol
  rw [if_neg]
  rw [Bool.not_eq_true, hasKey_eq_false_iff]
  exact h

/-!
## Claim theorems
-/

/-- Claim C6: `resolve_stop` returns `entry - atr * atr_mult` for long and
`entry + atr * atr_mult` for short when both ATR fields are provided, and
the raw `stop` field when either is absent; it is a total function, so it
never fails. -/
theorem resolve_stop_spec (i : TradeIdea) :
    (∀ a m : ℚ, i.atr = some a → i.atr_mult = some m →
      i.resolve_stop =
        if i.direction = "long" then i.entry - a * m else i.entry + a * m) ∧
    ((i.atr = none ∨ i.atr_mult = none) → i.resolve_stop = i.stop) := by
  constructor
  · intro a m ha hm
    simp [TradeIdea.resolve_stop, ha, hm]
  · exact resolve_stop_of_no_atr i

/-- Witness for C6 at concrete ideas: with both ATR fields present the
formula applies; with `atr` absent the raw stop is returned. -/
theorem resolve_stop_spec_witness :
    (TradeIdea.mk "ES" "long" 100 105 none (some 2) (some (3/2))).resolve_stop
      = (if ("long" : String) = "long" then (100 : ℚ) - 2 * (3/2)
         else (100 : ℚ) + 2 * (3/2)) ∧
    (TradeIdea.mk "NQ" "short" 50 60 none none (some 2)).resolve_stop = 60 :=
  ⟨(resolve_stop_spec _).1 2 (3/2) rfl rfl, (resolve_stop_spec _).2 (Or.inl rfl)⟩

/-- Claim C1: `risk_reward` is `none` exactly when the target is absent or
the directional risk (after stop resolution) is nonpositive; otherwise it
returns `reward / risk`, and a target on the wrong side of the entry yields
a defined negative ratio. -/
theorem risk_reward_spec (i : TradeIdea) :
    (i.risk_reward = none ↔ i.target = none ∨ i.riskOf ≤ 0) ∧
    (∀ t : ℚ, i.target = some t → 0 < i.riskOf →
      i.risk_reward = some (i.rewardOf t / i.riskOf)) ∧
    (∀ t : ℚ, i.target = some t → 0 < i.riskOf → i.rewardOf t < 0 →
      ∃ q : ℚ, i.risk_reward = some q ∧ q < 0) := by
  have hmain : ∀ t : ℚ, i.target = some t →
      i.risk_reward =
        if i.riskOf ≤ 0 then none else some (i.rewardOf t / i.riskOf) := by
    intro t ht
    by_cases hd : i.direction = "long" <;>
      simp [TradeIdea.risk_reward, TradeIdea.riskOf, TradeIdea.rewardOf,
        ht, hd]
  refine ⟨?_, ?_, ?_⟩
  · cases ht : i.target with
    | none => simp [TradeIdea.risk_reward, ht]
    | some t =>
        rw [hmain t ht]
        by_cases hr : i.riskOf ≤ 0 <;> simp [hr, ht]
  · intro t ht hr
    rw [hmain t ht, if_neg (not_le.mpr hr)]
  · intro t ht hr hneg
    exact ⟨_, by rw [hmain t ht, if_neg (not_le.mpr hr)],
      div_neg_of_neg_of_pos hneg hr⟩

/-- Witness for C1: a long idea with the target below the entry has a
defined, negative risk/reward ratio. -/
theorem risk_reward_spec_witness :
    ∃ q : ℚ, (TradeIdea.mk "ES" "long" 100 90 (some 95) none
      none).risk_reward = some q ∧ q < 0 :=
  (risk_reward_spec _).2.2 95 rfl
    (by norm_num [TradeIdea.riskOf, TradeIdea.resolve_stop])
    (by norm_num [TradeIdea.rewardOf])

/-- Claim C4 counterexample: a `TradeIdea` whose entry equals its stop
field but whose ATR fields are set has a defined risk/reward: the ATR pair
overrides the stop field, so `entry == stop` alone does not force an
undefined result. -/
theorem risk_reward_entry_eq_stop_atr_cex :
    (TradeIdea.mk "ES" "long" 100 100 (some 109) (some 2)
        (some (3/2))).entry =
      (TradeIdea.mk "ES" "long" 100 100 (some 109) (some 2)
        (some (3/2))).stop ∧
    (TradeIdea.mk "ES" "long" 100 100 (some 109) (some 2)
        (some (3/2))).risk_reward = some 3 := by
  constructor
  · rfl
  · norm_num [TradeIdea.risk_reward, TradeIdea.resolve_stop]

/-- Claim C4 (amended): for every `TradeIdea` whose entry equals its stop
field and whose ATR pair is not fully set, `risk_reward` returns undefined,
regardless of direction and target. -/
theorem risk_reward_none_of_entry_eq_stop (i : TradeIdea)
    (he : i.entry = i.stop) (hatr : i.atr = none ∨ i.atr_mult = none) :
    i.risk_reward = none := by
  have hs := resolve_stop_of_no_atr i hatr
  cases ht : i.target with
  | none => simp [TradeIdea.risk_reward, ht]
  | some t =>
      by_cases hd : i.direction = "long" <;>
        simp [TradeIdea.risk_reward, ht, hd, hs, he]

/-- Witness for amended C4: a short idea with entry = stop = 100 and no ATR
fields has undefined risk/reward. -/
theorem risk_reward_none_of_entry_eq_stop_witness :
    (TradeIdea.mk "NQ" "short" 100 100 (some 70) none none).risk_reward
      = none :=
  risk_reward_none_of_entry_eq_stop _ rfl (Or.inl rfl)

/-- Claim C5: on ideas whose ATR pair is not fully set (so `resolve_stop`
returns the raw stop) and whose target is present, the bound methods agree
with the free functions `compute_rr` and `target_from_rr`. -/
theorem trade_idea_methods_eq_free (i : TradeIdea) (t : ℚ)
    (hatr : i.atr = none ∨ i.atr_mult = none) (ht : i.target = some t) :
    i.risk_reward = compute_rr i.entry i.stop t i.direction ∧
    ∀ desired_rr : ℚ,
      i.target_for_rr desired_rr =
        target_from_rr i.entry i.stop desired_rr i.direction := by
  have hs := resolve_stop_of_no_atr i hatr
  constructor
  · by_cases hd : i.direction = "long" <;>
      simp [TradeIdea.risk_reward, compute_rr, ht, hs, hd]
  · intro desired_rr
    by_cases hd : i.direction = "long" <;>
      simp [TradeIdea.target_for_rr, target_from_rr, hs, hd]

/-- Witness for C5 at a concrete short idea without ATR fields. -/
theorem trade_idea_methods_eq_free_witness :
    (TradeIdea.mk "CL" "short" 100 110 (some 70) none none).risk_reward =
      compute_rr 100 110 70 "short" ∧
    ∀ desired_rr : ℚ,
      (TradeIdea.mk "CL" "short" 100 110 (some 70) none
        none).target_for_rr desired_rr =
      target_from_rr 100 110 desired_rr "short" :=
  trade_idea_methods_eq_free _ 70 (Or.inl rfl) rfl

/-- Claim C2: round-trip — when the directional risk is strictly positive,
`compute_rr` applied to the target produced by `target_from_rr` recovers
the desired ratio exactly. -/
theorem compute_rr_target_from_rr_round_trip (entry stop desired_rr : ℚ)
    (direction : String) (h : 0 < dir_risk entry stop direction) :
    compute_rr entry stop (target_from_rr entry stop desired_rr direction)
      direction = some desired_rr := by
  by_cases hd : direction = "long"
  · rw [dir_risk, if_pos hd] at h
    have hne : entry - stop ≠ 0 := ne_of_gt h
    simp only [compute_rr, target_from_rr, if_pos hd]
    rw [if_neg (not_le.mpr h)]
    congr 1
    rw [div_eq_iff hne]
    ring
  · rw [dir_risk, if_neg hd] at h
    have hne : stop - entry ≠ 0 := ne_of_gt h
    simp only [compute_rr, target_from_rr, if_neg hd]
    rw [if_neg (not_le.mpr h)]
    congr 1
    rw [div_eq_iff hne]
    ring

/-- Witness for C2: entry 100, stop 90, desired ratio 3, long. -/
theorem compute_rr_target_from_rr_round_trip_witness :
    compute_rr 100 90 (target_from_rr 100 90 3 "long") "long" = some 3 :=
  compute_rr_target_from_rr_round_trip 100 90 3 "long"
    (by norm_num [dir_risk])

/-- Claim C3: the returned size is never negative, and whenever it is
strictly positive it is a whole number, namely the greatest whole number of
units whose total risk stays within the allowed dollar risk
`equity * risk_pct`. -/
theorem position_size_by_risk_spec (equity risk_pct entry stop : ℚ)
    (direction : String) (contract_multiplier min_size : ℚ) :
    0 ≤ (position_size_by_risk equity risk_pct entry stop direction
      contract_multiplier min_size).1 ∧
    (0 < (position_size_by_risk equity risk_pct entry stop direction
        contract_multiplier min_size).1 →
      ∃ n : ℕ, 0 < n ∧
        (position_size_by_risk equity risk_pct entry stop direction
          contract_multiplier min_size).1 = (n : ℚ) ∧
        (n : ℚ) * per_unit_risk entry stop direction contract_multiplier ≤
          equity * risk_pct ∧
        ∀ m : ℕ,
          (m : ℚ) * per_unit_risk entry stop direction contract_multiplier ≤
            equity * risk_pct → m ≤ n) := by
  by_cases hp : per_unit_risk entry stop direction contract_multiplier ≤ 0
  · constructor
    · simp [position_size_by_risk, hp]
    · intro hpos
      simp [position_size_by_risk, hp] at hpos
  · push_neg at hp
    have hres : position_size_by_risk equity risk_pct entry stop direction
        contract_multiplier min_size =
        (if 0 < max ((⌊equity * risk_pct / per_unit_risk entry stop direction
              contract_multiplier⌋ : ℤ) : ℚ) 0 ∧
            max ((⌊equity * risk_pct / per_unit_risk entry stop direction
              contract_multiplier⌋ : ℤ) : ℚ) 0 < min_size
          then 0
          else max ((⌊equity * risk_pct / per_unit_risk entry stop direction
            contract_multiplier⌋ : ℤ) : ℚ) 0,
         per_unit_risk entry stop direction contract_multiplier) := by
      simp only [position_size_by_risk, if_neg (not_le.mpr hp)]
    rw [hres]
    by_cases hif : 0 < max ((⌊equity * risk_pct / per_unit_risk entry stop
          direction contract_multiplier⌋ : ℤ) : ℚ) 0 ∧
        max ((⌊equity * risk_pct / per_unit_risk entry stop direction
          contract_multiplier⌋ : ℤ) : ℚ) 0 < min_size
    · rw [if_pos hif]
      refine ⟨le_refl 0, fun h0 => absurd h0 (lt_irrefl 0)⟩
    · rw [if_neg hif]
      refine ⟨le_max_right _ _, fun h0 => ?_⟩
      have hz : (0 : ℚ) <
          ((⌊equity * risk_pct / per_unit_risk entry stop direction
            contract_multiplier⌋ : ℤ) : ℚ) := by
        rcases lt_or_le 0 ((⌊equity * risk_pct / per_unit_risk entry stop
            direction contract_multiplier⌋ : ℤ) : ℚ) with hgt | hle
        · exact hgt
        · rw [max_eq_right hle] at h0
          exact absurd h0 (lt_irrefl 0)
      have hzint : (0 : ℤ) < ⌊equity * risk_pct / per_unit_risk entry stop
          direction contract_multiplier⌋ := by exact_mod_cast hz
      have hmax : max ((⌊equity * risk_pct / per_unit_risk entry stop
          direction contract_multiplier⌋ : ℤ) : ℚ) 0 =
          ((⌊equity * risk_pct / per_unit_risk entry stop direction
            contract_multiplier⌋ : ℤ) : ℚ) := max_eq_left hz.le
      have hnq : ((⌊equity * risk_pct / per_unit_risk entry stop direction
          contract_multiplier⌋.toNat : ℕ) : ℚ) =
          ((⌊equity * risk_pct / per_unit_risk entry stop direction
            contract_multiplier⌋ : ℤ) : ℚ) := by
        exact_mod_cast Int.toNat_of_nonneg hzint.le
      refine ⟨(⌊equity * risk_pct / per_unit_risk entry stop direction
        contract_multiplier⌋).toNat, ?_, ?_, ?_, ?_⟩
      · omega
      · rw [hmax]
        exact hnq.symm
      · have hfl := Int.floor_le (equity * risk_pct / per_unit_risk entry
          stop direction contract_multiplier)
        have hle : ((⌊equity * risk_pct / per_unit_risk entry stop direction
            contract_multiplier⌋ : ℤ) : ℚ) *
            per_unit_risk entry stop direction contract_multiplier ≤
            equity * risk_pct := (le_div_iff₀ hp).mp hfl
        rw [hnq]
        exact hle
      · intro m hm
        have hmq : (m : ℚ) ≤ equity * risk_pct / per_unit_risk entry stop
            direction contract_multiplier := (le_div_iff₀ hp).mpr hm
        have hmz : (m : ℤ) ≤ ⌊equity * risk_pct / per_unit_risk entry stop
            direction contract_multiplier⌋ :=
          Int.le_floor.mpr (by exact_mod_cast hmq)
        omega

/-- Witness for C3: equity 10000, 1% risk, entry 100, stop 98, long,
multiplier 1, min size 1 — the size is 50 units. -/
theorem position_size_by_risk_spec_witness :
    ∃ n : ℕ, 0 < n ∧
      (position_size_by_risk 10000 (1/100) 100 98 "long" 1 1).1 = (n : ℚ) ∧
      (n : ℚ) * per_unit_risk 100 98 "long" 1 ≤ 10000 * (1/100) ∧
      ∀ m : ℕ, (m : ℚ) * per_unit_risk 100 98 "long" 1 ≤ 10000 * (1/100) →
        m ≤ n :=
  (position_size_by_risk_spec 10000 (1/100) 100 98 "long" 1 1).2
    (by norm_num [position_size_by_risk, per_unit_risk])

/-- Claim C7: a nonpositive per-unit risk yields `(0, 0)`, and a positive
per-unit risk whose floored size is positive but below `min_size` yields
`(0, per_unit_risk)`; both are ordinary returns of the total function, not
errors. -/
theorem position_size_by_risk_guards (equity risk_pct entry stop : ℚ)
    (direction : String) (contract_multiplier min_size : ℚ) :
    (per_unit_risk entry stop direction contract_multiplier ≤ 0 →
      position_size_by_risk equity risk_pct entry stop direction
        contract_multiplier min_size = (0, 0)) ∧
    (0 < per_unit_risk entry stop direction contract_multiplier →
      0 < ⌊equity * risk_pct / per_unit_risk entry stop direction
        contract_multiplier⌋ →
      ((⌊equity * risk_pct / per_unit_risk entry stop direction
        contract_multiplier⌋ : ℤ) : ℚ) < min_size →
      position_size_by_risk equity risk_pct entry stop direction
        contract_multiplier min_size =
        (0, per_unit_risk entry stop direction contract_multiplier)) := by
  constructor
  · intro h
    simp [position_size_by_risk, h]
  · intro hp hz hms
    have h0 : (0 : ℚ) < ((⌊equity * risk_pct / per_unit_risk entry stop
        direction contract_multiplier⌋ : ℤ) : ℚ) := by exact_mod_cast hz
    simp only [position_size_by_risk, if_neg (not_le.mpr hp)]
    rw [max_eq_left h0.le, if_pos ⟨h0, hms⟩]

/-- Witness for C7: entry = stop gives `(0, 0)`; a floored size of 50 below
a minimum size of 100 gives `(0, 2)`. -/
theorem position_size_by_risk_guards_witness :
    position_size_by_risk 10000 (1/100) 100 100 "long" 1 1 = (0, 0) ∧
    position_size_by_risk 10000 (1/100) 100 98 "long" 1 100 =
      (0, per_unit_risk 100 98 "long" 1) :=
  ⟨(position_size_by_risk_guards 10000 (1/100) 100 100 "long" 1 1).1
      (by norm_num [per_unit_risk]),
   (position_size_by_risk_guards 10000 (1/100) 100 98 "long" 1 100).2
      (by norm_num [per_unit_risk]) (by norm_num [per_unit_risk])
      (by norm_num [per_unit_risk])⟩

/-- Claim C10: any direction value other than the exact string `"long"` is
treated as short by `resolve_stop`, `risk_reward`, `compute_rr`,
`target_from_rr` and `position_size_by_risk`: each agrees with its result
at direction `"short"` on all remaining arguments. -/
theorem non_long_direction_is_short (d : String) (hd : d ≠ "long") :
    (∀ (sym : String) (entry stop : ℚ) (target atr atr_mult : Option ℚ),
      (TradeIdea.mk sym d entry stop target atr atr_mult).resolve_stop =
        (TradeIdea.mk sym "short" entry stop target atr
          atr_mult).resolve_stop) ∧
    (∀ (sym : String) (entry stop : ℚ) (target atr atr_mult : Option ℚ),
      (TradeIdea.mk sym d entry stop target atr atr_mult).risk_reward =
        (TradeIdea.mk sym "short" entry stop target atr
          atr_mult).risk_reward) ∧
    (∀ entry stop target : ℚ,
      compute_rr entry stop target d = compute_rr entry stop target "short") ∧
    (∀ entry stop desired_rr : ℚ,
      target_from_rr entry stop desired_rr d =
        target_from_rr entry stop desired_rr "short") ∧
    (∀ equity risk_pct entry stop contract_multiplier min_size : ℚ,
      position_size_by_risk equity risk_pct entry stop d contract_multiplier
        min_size =
      position_size_by_risk equity risk_pct entry stop "short"
        contract_multiplier min_size) := by
  have hshort : ("short" : String) ≠ "long" := by decide
  refine ⟨?_, ?_, ?_, ?_, ?_⟩
  · intro sym entry stop target atr atr_mult
    cases atr <;> cases atr_mult <;>
      simp [TradeIdea.resolve_stop, hd, hshort]
  · intro sym entry stop target atr atr_mult
    cases target <;> cases atr <;> cases atr_mult <;>
      simp [TradeIdea.risk_reward, TradeIdea.resolve_stop, hd, hshort]
  · intro entry stop target
    simp [compute_rr, hd, hshort]
  · intro entry stop desired_rr
    simp [target_from_rr, hd, hshort]
  · intro equity risk_pct entry stop contract_multiplier min_size
    simp [position_size_by_risk, per_unit_risk, hd, hshort]

/-- Witness for C10 at the non-canonical direction string `"LONG"`. -/
theorem non_long_direction_is_short_witness :
    compute_rr 100 110 70 "LONG" = compute_rr 100 110 70 "short" :=
  (non_long_direction_is_short "LONG" (by decide)).2.2.1 100 110 70

/-- Claim C8: for every table and row index, the output row exists (a bad
row never makes the call fail), its `rr` cell is NaN and its `pass_rr` cell
is false whenever the row-level evaluation of `compute_rr` raises, returns
`None`, or returns a non-finite number, and a finite result `q` is recorded
as is with `pass_rr` equal to `min_rr ≤ q`. -/
theorem filter_trades_by_rr_row_spec (df : List Row)
    (entry_col stop_col target_col direction_col : String) (min_rr : ℚ)
    (i : ℕ) (r : Row) (hr : df[i]? = some r) :
    (filter_trades_by_rr df entry_col stop_col target_col direction_col
      min_rr).length = df.length ∧
    ∃ outRow : Row,
      (filter_trades_by_rr df entry_col stop_col target_col direction_col
        min_rr)[i]? = some outRow ∧
      ((rowRR r entry_col stop_col target_col direction_col = .error () ∨
        rowRR r entry_col stop_col target_col direction_col = .ok none ∨
        rowRR r entry_col stop_col target_col direction_col =
          .ok (some PNum.nan)) →
        outRow.get "rr" = some PyVal.nan ∧
        outRow.get "pass_rr" = some (PyVal.bool false)) ∧
      (∀ q : ℚ,
        rowRR r entry_col stop_col target_col direction_col =
          .ok (some (PNum.fin q)) →
        outRow.get "rr" = some (PyVal.num q) ∧
        outRow.get "pass_rr" = some (PyVal.bool (decide (min_rr ≤ q)))) := by
  refine ⟨List.length_map .., ?_⟩
  refine ⟨(r.setCol "rr" (safe_rr r entry_col stop_col target_col
      direction_col)).setCol "pass_rr"
      (.bool (passOf (safe_rr r entry_col stop_col target_col direction_col)
        min_rr)), ?_, ?_, ?_⟩
  · simp [filter_trades_by_rr, List.getElem?_map, hr]
  · intro hbad
    have hsafe : safe_rr r entry_col stop_col target_col direction_col =
        PyVal.nan := by
      unfold safe_rr
      rcases hbad with h | h | h <;> rw [h]
    rw [hsafe]
    constructor
    · rw [Row.get_setCol_other _ _ _ _ (by decide), Row.get_setCol_self]
    · rw [Row.get_setCol_self]
      rfl
  · intro q hq
    have hsafe : safe_rr r entry_col stop_col target_col direction_col =
        PyVal.num q := by
      unfold safe_rr
      rw [hq]
    rw [hsafe]
    constructor
    · rw [Row.get_setCol_other _ _ _ _ (by decide), Row.get_setCol_self]
    · rw [Row.get_setCol_self]
      rfl

/-- Witness for C8 on a one-row table whose entry cell is a string: the
evaluation raises, and the appended cells are NaN and false. -/
theorem filter_trades_by_rr_row_spec_witness :
    (filter_trades_by_rr [⟨[("entry", PyVal.str "oops"),
        ("stop", PyVal.num 90), ("target", PyVal.num 130),
        ("direction", PyVal.str "long")]⟩]
      "entry" "stop" "target" "direction" 2).length =
      ([⟨[("entry", PyVal.str "oops"), ("stop", PyVal.num 90),
        ("target", PyVal.num 130), ("direction", PyVal.str "long")]⟩] :
        List Row).length ∧
    ∃ outRow : Row,
      (filter_trades_by_rr [⟨[("entry", PyVal.str "oops"),
          ("stop", PyVal.num 90), ("target", PyVal.num 130),
          ("direction", PyVal.str "long")]⟩]
        "entry" "stop" "target" "direction" 2)[0]? = some outRow ∧
      ((rowRR ⟨[("entry", PyVal.str "oops"), ("stop", PyVal.num 90),
          ("target", PyVal.num 130), ("direction", PyVal.str "long")]⟩
          "entry" "stop" "target" "direction" = .error () ∨
        rowRR ⟨[("entry", PyVal.str "oops"), ("stop", PyVal.num 90),
          ("target", PyVal.num 130), ("direction", PyVal.str "long")]⟩
          "entry" "stop" "target" "direction" = .ok none ∨
        rowRR ⟨[("entry", PyVal.str "oops"), ("stop", PyVal.num 90),
          ("target", PyVal.num 130), ("direction", PyVal.str "long")]⟩
          "entry" "stop" "target" "direction" = .ok (some PNum.nan)) →
        outRow.get "rr" = some PyVal.nan ∧
        outRow.get "pass_rr" = some (PyVal.bool false)) ∧
      (∀ q : ℚ,
        rowRR ⟨[("entry", PyVal.str "oops"), ("stop", PyVal.num 90),
          ("target", PyVal.num 130), ("direction", PyVal.str "long")]⟩
          "entry" "stop" "target" "direction" = .ok (some (PNum.fin q)) →
        outRow.get "rr" = some (PyVal.num q) ∧
        outRow.get "pass_rr" = some (PyVal.bool (decide (2 ≤ q)))) :=
  filter_trades_by_rr_row_spec
    [⟨[("entry", PyVal.str "oops"), ("stop", PyVal.num 90),
      ("target", PyVal.num 130), ("direction", PyVal.str "long")]⟩]
    "entry" "stop" "target" "direction" 2 0 _ rfl

/-- Claim C9 counterexample: on an input table that already carries an `rr`
column, `filter_trades_by_rr` overwrites that column in place rather than
appending a new one: the input row has 5 cells, the output row has 6 (an
appended-only result would have 7), and the original `rr` value 7 is
gone. -/
theorem filter_trades_by_rr_append_cex :
    filter_trades_by_rr [⟨[("entry", PyVal.num 100), ("stop", PyVal.num 90),
        ("target", PyVal.num 130), ("direction", PyVal.str "long"),
        ("rr", PyVal.num 7)]⟩] "entry" "stop" "target" "direction" 2 =
      [⟨[("entry", PyVal.num 100), ("stop", PyVal.num 90),
        ("target", PyVal.num 130), ("direction", PyVal.str "long"),
        ("rr", PyVal.num 3), ("pass_rr", PyVal.bool true)]⟩] ∧
    (⟨[("entry", PyVal.num 100), ("stop", PyVal.num 90),
        ("target", PyVal.num 130), ("direction", PyVal.str "long"),
        ("rr", PyVal.num 7)]⟩ : Row).cells.length = 5 := by
  constructor
  · simp only [filter_trades_by_rr, safe_rr, rowRR, compute_rr_dyn, Row.get,
      getCell, Row.setCol, hasKey, replaceKey, PyVal.toNum, PNum.sub,
      PNum.nonpos, PNum.div, passOf, List.map, String.reduceEq, reduceIte]
    norm_num
  · rfl

/-- Claim C9 (amended): the call returns a new table of the same length in
which each row carries `rr` and `pass_rr` — appended at the end when absent
from the input row, overwritten in place when present — and every column
other than `rr` and `pass_rr` is passed through unchanged.  The input
table, a pure value here as in the source (which copies the frame before
assigning), is not mutated. -/
theorem filter_trades_by_rr_frame (df : List Row)
    (entry_col stop_col target_col direction_col : String) (min_rr : ℚ)
    (i : ℕ) (r : Row) (hr : df[i]? = some r) :
    (filter_trades_by_rr df entry_col stop_col target_col direction_col
      min_rr).length = df.length ∧
    ∃ outRow : Row,
      (filter_trades_by_rr df entry_col stop_col target_col direction_col
        min_rr)[i]? = some outRow ∧
      (∀ c : String, c ≠ "rr" → c ≠ "pass_rr" → outRow.get c = r.get c) ∧
      (r.get "rr" = none → r.get "pass_rr" = none →
        ∃ (v : PyVal) (b : Bool),
          outRow.cells = r.cells ++ [("rr", v), ("pass_rr", PyVal.bool b)]) := by
  refine ⟨List.length_map .., ?_⟩
  refine ⟨(r.setCol "rr" (safe_rr r entry_col stop_col target_col
      direction_col)).setCol "pass_rr"
      (.bool (passOf (safe_rr r entry_col stop_col target_col direction_col)
        min_rr)), ?_, ?_, ?_⟩
  · simp [filter_trades_by_rr, List.getElem?_map, hr]
  · intro c hc1 hc2
    rw [Row.get_setCol_other _ _ _ _ hc2, Row.get_setCol_other _ _ _ _ hc1]
  · intro h1 h2
    have h2' : (r.setCol "rr" (safe_rr r entry_col stop_col target_col
        direction_col)).get "pass_rr" = none := by
      rw [Row.get_setCol_other _ _ _ _ (by decide)]
      exact h2
    refine ⟨safe_rr r entry_col stop_col target_col direction_col,
      passOf (safe_rr r entry_col stop_col target_col direction_col) min_rr,
      ?_⟩
    rw [Row.setCol_absent _ _ _ h2', Row.setCol_absent _ _ _ h1,
      List.append_assoc]
    rfl

/-- Witness for amended C9 on a one-row table without `rr` or `pass_rr`
columns. -/
theorem filter_trades_by_rr_frame_witness :
    (filter_trades_by_rr [⟨[("entry", PyVal.num 50), ("stop", PyVal.num 45),
        ("target", PyVal.num 60), ("direction", PyVal.str "long")]⟩]
      "entry" "stop" "target" "direction" 2).length =
      ([⟨[("entry", PyVal.num 50), ("stop", PyVal.num 45),
        ("target", PyVal.num 60), ("direction", PyVal.str "long")]⟩] :
        List Row).length ∧
    ∃ outRow : Row,
      (filter_trades_by_rr [⟨[("entry", PyVal.num 50), ("stop", PyVal.num 45),
          ("target", PyVal.num 60), ("direction", PyVal.str "long")]⟩]
        "entry" "stop" "target" "direction" 2)[0]? = some outRow ∧
      (∀ c : String, c ≠ "rr" → c ≠ "pass_rr" →
        outRow.get c = Row.get ⟨[("entry", PyVal.num 50),
          ("stop", PyVal.num 45), ("target", PyVal.num 60),
          ("direction", PyVal.str "long")]⟩ c) ∧
      (Row.get ⟨[("entry", PyVal.num 50), ("stop", PyVal.num 45),
          ("target", PyVal.num 60), ("direction", PyVal.str "long")]⟩ "rr" =
          none →
        Row.get ⟨[("entry", PyVal.num 50), ("stop", PyVal.num 45),
          ("target", PyVal.num 60), ("direction", PyVal.str "long")]⟩
          "pass_rr" = none →
        ∃ (v : PyVal) (b : Bool),
          outRow.cells = (⟨[("entry", PyVal.num 50), ("stop", PyVal.num 45),
            ("target", PyVal.num 60), ("direction", PyVal.str "long")]⟩ :
              Row).cells ++ [("rr", v), ("pass_rr", PyVal.bool b)]) :=
  filter_trades_by_rr_frame
    [⟨[("entry", PyVal.num 50), ("stop", PyVal.num 45),
      ("target", PyVal.num 60), ("direction", PyVal.str "long")]⟩]
    "entry" "stop" "target" "direction" 2 0 _ rfl
